import Mathlib

/-
Verification of the bchwallet payment-channel core (package `paymentchannels`).

The Go sources are embedded shallowly: pure functions become Lean functions,
the walletdb store becomes an explicit bucket state, machine integers become
Nat/Int, and fallible code returns Option/Except.  External collaborators
(bchec curve arithmetic, chainhash, bchutil addresses, the gob codec and the
txscript engine) are modelled by concrete computable stand-ins; only the
properties of those stand-ins that the external packages actually guarantee
(determinism, output format, losslessness of encodings) are relied upon.
-/

set_option autoImplicit false
set_option maxRecDepth 100000

namespace Bchw

/-- Bytes are modelled as lists of naturals; well-formed bytes are below 256. -/
abbrev Bytes := List Nat

/-- Well-formedness of a byte string: every entry is an actual byte. -/
def bytesWF (bs : Bytes) : Prop := ∀ b ∈ bs, b < 256

instance (bs : Bytes) : Decidable (bytesWF bs) := List.decidableBAll _ bs

/-- Lower-case hex digit for a value below 16, as in Go's encoding/hex. -/
def hexDigitChar (n : Nat) : Char := Char.ofNat (if n < 10 then 48 + n else 87 + n)

/-- Inverse of `hexDigitChar` on single characters. -/
def hexCharVal (c : Char) : Option Nat :=
  let v := c.toNat
  if 48 ≤ v ∧ v ≤ 57 then some (v - 48)
  else if 97 ≤ v ∧ v ≤ 102 then some (v - 87)
  else none

/-- Hex encoding of a byte string, two characters per byte. -/
def hexEncodeChars : Bytes → List Char
  | [] => []
  | b :: bs => hexDigitChar (b / 16) :: hexDigitChar (b % 16) :: hexEncodeChars bs

/-- Model of Go's hex.EncodeToString. -/
def hexEncode (bs : Bytes) : String := String.mk (hexEncodeChars bs)

/-- Hex decoding of a character list; fails on odd length or a non-hex digit. -/
def hexDecodeChars : List Char → Option Bytes
  | [] => some []
  | [_] => none
  | c1 :: c2 :: cs =>
    match hexCharVal c1, hexCharVal c2, hexDecodeChars cs with
    | some h, some l, some rest => some ((16 * h + l) :: rest)
    | _, _, _ => none

/-- Model of chainhash.Hash: a 32-byte array held in the internal byte order. -/
abbrev Hash := List Nat

/-- The all-zero hash, the zero value of chainhash.Hash in Go. -/
def zeroHash : Hash := List.replicate 32 0

/-- chainhash.Hash.String: the hex of the byte-reversed array (big-endian display). -/
def hashDisplay (h : Hash) : String := hexEncode h.reverse

/-- chainhash.NewHashFromStr: left-pad the hex string with zeros to 64 characters,
decode, and reverse the bytes into the internal order.  Strings longer than 64
characters are rejected, as in the external package. -/
def newHashFromStr (s : String) : Option Hash :=
  if s.toList.length > 64 then none
  else
    match hexDecodeChars (List.replicate (64 - s.toList.length) (Char.ofNat 48) ++ s.toList) with
    | some bs => some bs.reverse
    | none => none

/-- Big-endian encoding of a natural into exactly `k` bytes (Go big.Int.Bytes padded). -/
def natToBytesBE : Nat → Nat → Bytes
  | 0, _ => []
  | k + 1, d => d / 256 ^ k % 256 :: natToBytesBE k d

/-- Big-endian byte decoding into a natural. -/
def bytesToNat (bs : Bytes) : Nat := bs.foldl (fun a b => 256 * a + b) 0

/-- Model of bchec.PrivateKey: the secret scalar.  The curve itself is external;
nothing in this development depends on its arithmetic. -/
structure PrivateKey where
  d : Nat
deriving DecidableEq

/-- Model of bchec.PublicKey, carried as its canonical 33-byte compressed form. -/
structure PublicKey where
  compressed : Bytes
deriving DecidableEq

/-- bchec.PrivateKey.Serialize: the 32-byte big-endian scalar. -/
def PrivateKey.serialize (sk : PrivateKey) : Bytes := natToBytesBE 32 sk.d

/-- bchec.PrivKeyFromBytes: rebuild the scalar from its big-endian bytes. -/
def privKeyFromBytes (bs : Bytes) : PrivateKey := ⟨bytesToNat bs⟩

/-- bchec.PrivateKey.PubKey: computable injective stand-in for scalar multiplication
producing a compressed point; only determinism and the 33-byte format are used. -/
def PrivateKey.pubKey (sk : PrivateKey) : PublicKey := ⟨2 :: natToBytesBE 32 sk.d⟩

/-- bchec.ParsePubKey restricted to the compressed format accepted by the code paths
modelled here: 33 bytes starting with the 0x02 or 0x03 parity tag. -/
def parsePubKey (bs : Bytes) : Option PublicKey :=
  if bs.length = 33 ∧ (bs.head? = some 2 ∨ bs.head? = some 3) then some ⟨bs⟩ else none

/-- Stand-in for the external SHA-256 digest: deterministic with a 32-byte output,
the only facts about it this development relies on. -/
def sha256 (msg : Bytes) : Bytes := natToBytesBE 32 (msg.foldl (fun a b => 313 * a + b + 7) 1)

/-- Network parameters; the code only consults them to tag and check addresses. -/
structure Params where
  netID : Nat
deriving DecidableEq

/-- Model of bchutil.AddressScriptHash.  The external RIPEMD160-of-SHA256 digest is
replaced by an injective stand-in (the script itself), the usual collision-freeness
idealization of a cryptographic hash. -/
structure Address where
  netID : Nat
  scriptHash : Bytes
deriving DecidableEq

/-- bchutil.NewAddressScriptHash. -/
def newAddressScriptHash (script : Bytes) (params : Params) : Address :=
  ⟨params.netID, script⟩

/-- bchutil.Address.String: the human-readable encoding.  The external cashaddr
format is modelled by a hex rendering of the network tag and body; losslessness is
the only property consumed. -/
def Address.encode (a : Address) : String := hexEncode (a.netID :: a.scriptHash)

/-- bchutil.DecodeAddress with network parameters: re-parse the encoding, rejecting
a mismatched network. -/
def decodeAddress (s : String) (params : Params) : Option Address :=
  match hexDecodeChars s.toList with
  | some (n :: body) => if n = params.netID then some ⟨n, body⟩ else none
  | _ => none

/-- Script opcodes (txscript constants). -/
def OP_IF : Nat := 99
def OP_ELSE : Nat := 103
def OP_ENDIF : Nat := 104
def OP_DROP : Nat := 117
def OP_EQUAL : Nat := 135
def OP_HASH160 : Nat := 169
def OP_CHECKSIG : Nat := 172
def OP_CHECKMULTISIG : Nat := 174
def OP_CHECKSEQUENCEVERIFY : Nat := 178

/-- txscript.ScriptBuilder.AddData: minimal-push encoding for the data sizes that
occur here (below 64 KiB). -/
def pushData (d : Bytes) : Bytes :=
  if d.length < 76 then d.length :: d
  else if d.length < 256 then 76 :: d.length :: d
  else 77 :: d.length % 256 :: d.length / 256 :: d

/-- Little-endian byte rendering with a byte-count fuel, for script numbers. -/
def natToBytesLE : Nat → Nat → Bytes
  | 0, _ => []
  | f + 1, n => if n = 0 then [] else n % 256 :: natToBytesLE f (n / 256)

/-- Script-number encoding of a non-negative integer (txscript.scriptNum bytes). -/
def scriptNumBytes (n : Nat) : Bytes :=
  let bs := natToBytesLE 9 n
  if bs.getLastD 0 ≥ 128 then bs ++ [0] else bs

/-- txscript.ScriptBuilder.AddInt64 for the non-negative values used here: small
integers become the dedicated opcodes, larger ones a minimal data push. -/
def addInt64 (n : Nat) : Bytes :=
  if n = 0 then [0]
  else if n ≤ 16 then [80 + n]
  else pushData (scriptNumBytes n)

/-- txscript.PayToAddrScript for a P2SH address. -/
def payToAddrScript (a : Address) : Bytes :=
  OP_HASH160 :: pushData a.scriptHash ++ [OP_EQUAL]

/-- wire.OutPoint. -/
structure OutPoint where
  hash : Hash
  index : Nat
deriving DecidableEq

/-- wire.TxIn. -/
structure TxIn where
  previousOutPoint : OutPoint
  signatureScript : Bytes
  sequence : Nat
deriving DecidableEq

/-- wire.TxOut. -/
structure TxOut where
  value : Int
  pkScript : Bytes
deriving DecidableEq

/-- wire.MsgTx. -/
structure MsgTx where
  version : Int
  txIn : List TxIn
  txOut : List TxOut
  lockTime : Nat
deriving DecidableEq

/-- The zero value of wire.MsgTx. -/
def MsgTx.zero : MsgTx := ⟨0, [], [], 0⟩

/-- wire.MaxTxInSequenceNum. -/
def maxTxInSequenceNum : Nat := 4294967295

/-- ChannelStatus is the state the channel is in at any given time. -/
inductive ChannelStatus where
  | Opening
  | Open
  | PendingClosure
  | Closed
  | Error
deriving DecidableEq

/-- Channel holds all the data relevant to a payment channel (part of the
paymentchannels package).  bchutil.Amount fields are int64 and become Int; the
revocation-privkey map becomes an association list. -/
structure Channel where
  ID : Hash
  Status : ChannelStatus
  CreationDate : Int
  Inbound : Bool
  AddressID : Bytes
  RemotePeerID : String
  RemotePubkey : PublicKey
  LocalPrivkey : PrivateKey
  RemoteRevocationPrivkeys : List (Address × PrivateKey)
  RemoteRevocationPubkey : PublicKey
  LocalRevocationPrivkey : PrivateKey
  Delay : Nat
  FeePerByte : Int
  DustLimit : Int
  RemotePayoutScript : Bytes
  LocalPayoutScript : Bytes
  RemoteBalance : Int
  LocalBalance : Int
  CommitmentTx : MsgTx
  FundingTxid : Hash
  FundingOutpoint : OutPoint
  PayoutTxid : Hash
  TransactionCount : Nat
  ChannelAddress : Address
  RedeemScript : Bytes
deriving DecidableEq

/-- ChannelTransaction represents a transaction which updated the channel state. -/
structure ChannelTransaction where
  ID : Hash
  ChannelID : Hash
  Amount : Int
  Timestamp : Int
deriving DecidableEq

/-- Go map insertion on the association-list model of a map: replace the value of
an existing key, or append a fresh binding. -/
def assocPut {κ α : Type} [DecidableEq κ] : List (κ × α) → κ → α → List (κ × α)
  | [], k, v => [(k, v)]
  | p :: rest, k, v => if p.1 = k then (k, v) :: rest else p :: assocPut rest k v

/-- Go map lookup on the association-list model of a map. -/
def assocGet {κ α : Type} [DecidableEq κ] (l : List (κ × α)) (k : κ) : Option α :=
  (l.find? (fun p => p.1 = k)).map Prod.snd

/-- buildP2SHAddress: the 2-of-2 escrow script `2 <pubA> <pubB> 2 OP_CHECKMULTISIG`
and its P2SH address.  The script-builder error path is unreachable for this shape. -/
def buildP2SHAddress (alicePubkey bobPubkey : PublicKey) (params : Params) :
    Address × Bytes :=
  let redeemScript :=
    addInt64 2 ++ pushData alicePubkey.compressed ++ pushData bobPubkey.compressed ++
      addInt64 2 ++ [OP_CHECKMULTISIG]
  (newAddressScriptHash redeemScript params, redeemScript)

/-- buildBreachRemedyAddress: the two-branch breach-remedy script and its P2SH
address. -/
def buildBreachRemedyAddress (revocationPubkey commitmentPubkey delayPubkey : PublicKey)
    (delay : Nat) (params : Params) : Address × Bytes :=
  let redeemScript :=
    [OP_IF] ++ addInt64 2 ++ pushData revocationPubkey.compressed ++
      pushData commitmentPubkey.compressed ++ addInt64 2 ++ [OP_CHECKMULTISIG, OP_ELSE] ++
      addInt64 delay ++ [OP_CHECKSEQUENCEVERIFY, OP_DROP] ++
      pushData delayPubkey.compressed ++ [OP_CHECKSIG, OP_ENDIF]
  (newAddressScriptHash redeemScript params, redeemScript)

/-- buildCommitmentScriptSig: `OP_0 <sig1> <sig2> <redeemScript>`. -/
def buildCommitmentScriptSig (sig1 sig2 redeemScript : Bytes) : Bytes :=
  0 :: (pushData sig1 ++ pushData sig2 ++ pushData redeemScript)

/-- The signature-slot assignment the update handler makes when assembling the
commitment scriptSig: on an inbound channel the remote peer's signature goes into
the first slot and the local one into the second; on an outbound channel the local
signature goes first. -/
def commitmentScriptSigFor (c : Channel) (remoteSig localSig : Bytes) : Bytes :=
  if c.Inbound then buildCommitmentScriptSig remoteSig localSig c.RedeemScript
  else buildCommitmentScriptSig localSig remoteSig c.RedeemScript

/-- Behaviour of the external txscript signing and verification engine, abstracted
as the data the commitment engine consumes from it: a deterministic signature for
given transaction, script, key and input value, and a verdict for a fully assembled
commitment checked against a scriptPubkey and input value. -/
structure TxScript where
  rawTxInSignature : MsgTx → Bytes → PrivateKey → Int → Bytes
  engineValid : Bytes → MsgTx → Int → Bool

/-- Modelled from the spec: `wallet/txsizes.EstimateSerializeSize` is code of this
repository that is not under src/.  Spec rule 2 of the commitment engine says to
estimate the serialized size assuming the commitment scriptSig structure (OP_0 and
two signature pushes plus the 71-byte redeem-script push): 8 bytes of version and
locktime, the two count varints, per input a 36-byte outpoint, the scriptSig with
its length varint and a 4-byte sequence, and per output 8 value bytes plus the
script with its length varint. -/
def estimateSerializeSize (inputCount : Nat) (txOuts : List TxOut) (addChange : Bool) : Nat :=
  let scriptSigSize := 1 + (1 + 72) + (1 + 72) + (1 + 71)
  let inputSize := 36 + 1 + scriptSigSize + 4
  8 + 1 + 1 + inputCount * inputSize +
    (txOuts.map (fun o => 8 + 1 + o.pkScript.length)).sum +
    (if addChange then 34 else 0)

/-- The pre-fee value of the "standard" (direct) output selected by
buildCommitmentTransaction for the given direction. -/
def standardValueOf (c : Channel) (forLocalNode : Bool) : Int :=
  if forLocalNode then c.RemoteBalance else c.LocalBalance

/-- The pre-fee value of the breach output selected by buildCommitmentTransaction
for the given direction. -/
def breachValueOf (c : Channel) (forLocalNode : Bool) : Int :=
  if forLocalNode then c.LocalBalance else c.RemoteBalance

/-- The payout script of the "standard" (direct) output selected by
buildCommitmentTransaction: the remote payout script on our own commitment, ours on
the remote's. -/
def commitmentStandardScript (c : Channel) (forLocalNode : Bool) : Bytes :=
  if forLocalNode then c.RemotePayoutScript else c.LocalPayoutScript

/-- The scriptPubkey of the breach output selected by buildCommitmentTransaction:
pay to the breach-remedy address parameterized by the direction-dependent
revocation, commitment and delay pubkeys. -/
def commitmentBreachScript (c : Channel) (forLocalNode : Bool) (params : Params) : Bytes :=
  payToAddrScript (buildBreachRemedyAddress
    (if forLocalNode then c.LocalRevocationPrivkey.pubKey else c.RemoteRevocationPubkey)
    (if forLocalNode then c.RemotePubkey else c.LocalPrivkey.pubKey)
    (if forLocalNode then c.LocalPrivkey.pubKey else c.RemotePubkey)
    c.Delay params).1

/-- The output list assembled by buildCommitmentTransaction before the fee step:
the standard output is appended first, then the breach output, each only when its
pre-fee value clears the dust limit. -/
def preFeeOutputs (c : Channel) (forLocalNode : Bool) (params : Params) : List TxOut :=
  (if standardValueOf c forLocalNode > c.DustLimit then
    [⟨standardValueOf c forLocalNode, commitmentStandardScript c forLocalNode⟩] else []) ++
  (if breachValueOf c forLocalNode > c.DustLimit then
    [⟨breachValueOf c forLocalNode, commitmentBreachScript c forLocalNode params⟩] else [])

/-- buildCommitmentTransaction: build a new commitment transaction from the channel
record, for the local node when forLocalNode is set and for the remote node
otherwise.  Returns the transaction and the local signature. -/
def buildCommitmentTransaction (c : Channel) (forLocalNode : Bool) (params : Params)
    (ts : TxScript) : Except String (MsgTx × Bytes) :=
  let txIn : TxIn := ⟨c.FundingOutpoint, [], maxTxInSequenceNum⟩
  let txOuts := preFeeOutputs c forLocalNode params
  if txOuts.length = 0 then Except.error "both outputs below dust threshold"
  else
    let size := estimateSerializeSize 1 txOuts false
    let fee : Int := c.FeePerByte * (size : Int)
    let txOuts2 :=
      if txOuts.length = 1 then txOuts.map (fun o => { o with value := o.value - fee })
      else txOuts.map (fun o => { o with value := o.value - Int.tdiv fee 2 })
    let tx : MsgTx := ⟨1, [txIn], txOuts2, 0⟩
    let sig := ts.rawTxInSignature tx c.RedeemScript c.LocalPrivkey
      (c.LocalBalance + c.RemoteBalance)
    Except.ok (tx, sig)

/-- validateCommitmentSignature: run the external script engine over the assembled
commitment against the channel address and the escrow input value. -/
def validateCommitmentSignature (ts : TxScript) (c : Channel) (tx : MsgTx) : Bool :=
  ts.engineValid (payToAddrScript c.ChannelAddress) tx (c.LocalBalance + c.RemoteBalance)

/-- initNewIncomingChannel: create a channel from an inbound ChannelOpen.  The two
freshly generated private keys, the wallet-provided payout script and the clock
reading are random or environmental inputs of the Go function and are passed in
explicitly; all remaining fields take Go zero values. -/
def initNewIncomingChannel (params : Params) (addressID : Bytes)
    (remoteChannelPubkey remoteRevocationPubkey : PublicKey) (dustLimt feePerByte : Int)
    (delay : Nat) (remotePayoutScript : Bytes) (remotePeerID : String)
    (channelPrivateKey firstRevocationKey : PrivateKey) (payoutScript : Bytes)
    (creationDate : Int) : Except String Channel :=
  let cidBytes := sha256 (remoteChannelPubkey.compressed ++
    channelPrivateKey.pubKey.compressed)
  match newHashFromStr (hexEncode cidBytes) with
  | none => Except.error "invalid channel id hash"
  | some channelID =>
    let escrow := buildP2SHAddress remoteChannelPubkey channelPrivateKey.pubKey params
    Except.ok
      { ID := channelID
        Status := ChannelStatus.Opening
        CreationDate := creationDate
        Inbound := true
        AddressID := addressID
        RemotePeerID := remotePeerID
        RemotePubkey := remoteChannelPubkey
        LocalPrivkey := channelPrivateKey
        RemoteRevocationPrivkeys := []
        RemoteRevocationPubkey := remoteRevocationPubkey
        LocalRevocationPrivkey := firstRevocationKey
        Delay := delay
        FeePerByte := feePerByte
        DustLimit := dustLimt
        RemotePayoutScript := remotePayoutScript
        LocalPayoutScript := payoutScript
        RemoteBalance := 0
        LocalBalance := 0
        CommitmentTx := MsgTx.zero
        FundingTxid := zeroHash
        FundingOutpoint := ⟨zeroHash, 0⟩
        PayoutTxid := zeroHash
        TransactionCount := 0
        ChannelAddress := escrow.1
        RedeemScript := escrow.2 }

/-- serializableChannel: the flat form handed to the gob encoder, with keys as
canonical byte serializations and addresses as strings.  The gob layer itself is
external and lossless for this record type, so serialized values are modelled at
the record level. -/
structure SerializableChannel where
  ID : Hash
  Status : ChannelStatus
  CreationDate : Int
  Inbound : Bool
  AddressID : Bytes
  RemotePeerID : String
  Delay : Nat
  FeePerByte : Int
  DustLimit : Int
  RemotePayoutScript : Bytes
  LocalPayoutScript : Bytes
  RemoteBalance : Int
  LocalBalance : Int
  CommitmentTx : MsgTx
  FundingTxid : Hash
  FundingOutpoint : OutPoint
  PayoutTxid : Hash
  TransactionCount : Nat
  RedeemScript : Bytes
  RemotePubkey : Bytes
  LocalPrivkey : Bytes
  RemoteRevocationPrivkeys : List (String × Bytes)
  RemoteRevocationPubkey : Bytes
  LocalRevocationPrivkey : Bytes
  ChannelAddress : String
deriving DecidableEq

/-- serializeChannel: convert the live record into its serializable form. -/
def serializeChannel (c : Channel) : SerializableChannel :=
  { ID := c.ID
    Status := c.Status
    CreationDate := c.CreationDate
    Inbound := c.Inbound
    AddressID := c.AddressID
    RemotePeerID := c.RemotePeerID
    Delay := c.Delay
    FeePerByte := c.FeePerByte
    DustLimit := c.DustLimit
    RemotePayoutScript := c.RemotePayoutScript
    LocalPayoutScript := c.LocalPayoutScript
    RemoteBalance := c.RemoteBalance
    LocalBalance := c.LocalBalance
    CommitmentTx := c.CommitmentTx
    FundingTxid := c.FundingTxid
    FundingOutpoint := c.FundingOutpoint
    PayoutTxid := c.PayoutTxid
    TransactionCount := c.TransactionCount
    RedeemScript := c.RedeemScript
    RemotePubkey := c.RemotePubkey.compressed
    LocalPrivkey := c.LocalPrivkey.serialize
    RemoteRevocationPrivkeys :=
      c.RemoteRevocationPrivkeys.map (fun p => (p.1.encode, p.2.serialize))
    RemoteRevocationPubkey := c.RemoteRevocationPubkey.compressed
    LocalRevocationPrivkey := c.LocalRevocationPrivkey.serialize
    ChannelAddress := c.ChannelAddress.encode }

/-- Re-parse the serialized revocation-privkey map, failing on the first address
that does not decode (as the Go loop does). -/
def decodeRevocationMap (entries : List (String × Bytes)) (params : Params) :
    Option (List (Address × PrivateKey)) :=
  match entries with
  | [] => some []
  | (k, v) :: rest =>
    match decodeAddress k params, decodeRevocationMap rest params with
    | some addr, some tail => some ((addr, privKeyFromBytes v) :: tail)
    | _, _ => none

/-- deserializeChannel: rebuild the live record, re-deriving keys from their byte
serializations and re-parsing addresses with the network parameters. -/
def deserializeChannel (ser : SerializableChannel) (params : Params) : Option Channel :=
  match parsePubKey ser.RemotePubkey, parsePubKey ser.RemoteRevocationPubkey,
      decodeAddress ser.ChannelAddress params,
      decodeRevocationMap ser.RemoteRevocationPrivkeys params with
  | some remotePubkey, some remoteRevocationPubkey, some channelAddress, some revMap =>
    some
      { ID := ser.ID
        Status := ser.Status
        CreationDate := ser.CreationDate
        Inbound := ser.Inbound
        AddressID := ser.AddressID
        RemotePeerID := ser.RemotePeerID
        RemotePubkey := remotePubkey
        LocalPrivkey := privKeyFromBytes ser.LocalPrivkey
        RemoteRevocationPrivkeys := revMap
        RemoteRevocationPubkey := remoteRevocationPubkey
        LocalRevocationPrivkey := privKeyFromBytes ser.LocalRevocationPrivkey
        Delay := ser.Delay
        FeePerByte := ser.FeePerByte
        DustLimit := ser.DustLimit
        RemotePayoutScript := ser.RemotePayoutScript
        LocalPayoutScript := ser.LocalPayoutScript
        RemoteBalance := ser.RemoteBalance
        LocalBalance := ser.LocalBalance
        CommitmentTx := ser.CommitmentTx
        FundingTxid := ser.FundingTxid
        FundingOutpoint := ser.FundingOutpoint
        PayoutTxid := ser.PayoutTxid
        TransactionCount := ser.TransactionCount
        ChannelAddress := channelAddress
        RedeemScript := ser.RedeemScript }
  | _, _, _, _ => none

/-- Bucket.Put on one walletdb bucket, an association list keyed by 32-byte ids. -/
def bucketPut {α : Type} (bucket : List (Hash × α)) (k : Hash) (v : α) :
    List (Hash × α) :=
  assocPut bucket k v

/-- Point lookup in a bucket. -/
def bucketGet {α : Type} (bucket : List (Hash × α)) (k : Hash) : Option α :=
  assocGet bucket k

/-- The three nested buckets under the top-level paymentchannels bucket. -/
structure Store where
  openChannels : List (Hash × SerializableChannel)
  closedChannels : List (Hash × SerializableChannel)
  transactions : List (Hash × ChannelTransaction)
deriving DecidableEq

/-- saveChannel: one atomic write transaction that puts the serialized channel
into the open-channels bucket when its status is Open and into the closed-channels
bucket otherwise, and optionally appends a transaction-log entry. -/
def saveChannel (db : Store) (channel : Channel) (transaction : Option ChannelTransaction) :
    Store :=
  let serialized := serializeChannel channel
  let db1 :=
    if channel.Status ≠ ChannelStatus.Open then
      { db with closedChannels := bucketPut db.closedChannels channel.ID serialized }
    else
      { db with openChannels := bucketPut db.openChannels channel.ID serialized }
  match transaction with
  | none => db1
  | some t => { db1 with transactions := bucketPut db1.transactions t.ID t }

/-- pb.ChannelUpdateProposal, as decoded from the wire. -/
structure ChannelUpdateProposal where
  channelID : String
  amount : Int
  newRevocationPubkey : Bytes
  signature : Bytes
deriving DecidableEq

/-- The second message read during an update exchange, after protobuf decoding.
The errorReply and finalizeReply payloads are Option to model a payload that fails
to unmarshal; otherType stands for any other message type. -/
inductive ReplyMsg where
  | errorReply (message : Option String)
  | finalizeReply (revocationPrivkey : Option Bytes)
  | otherType
deriving DecidableEq

/-- A message written to the stream by the handler. -/
inductive OutMsg where
  | errorOut (message : String)
  | updateProposalAccept (newRevocationPubkey : Bytes) (signature : Bytes)
      (revocationPrivkey : Bytes)
deriving DecidableEq

/-- The distinct return points of handleChannelUpdateProposalMessage. -/
inductive HandlerErr where
  | invalidPayload
  | invalidChannelID
  | channelNotFound
  | wrongSender
  | invalidAmount
  | invalidRevPubkey
  | localBuildFailed
  | invalidSignature
  | remoteBuildFailed
  | readTimeout
  | remoteSentError
  | wrongMessageType
  | invalidFinalizePayload
  | invalidRevealedKey
deriving DecidableEq

instance {ε α : Type} [DecidableEq ε] [DecidableEq α] : DecidableEq (Except ε α) :=
  fun x y =>
    match x, y with
    | Except.error a, Except.error b =>
      if h : a = b then Decidable.isTrue (by subst h; rfl)
      else Decidable.isFalse (by intro hc; cases hc; exact h rfl)
    | Except.ok a, Except.ok b =>
      if h : a = b then Decidable.isTrue (by subst h; rfl)
      else Decidable.isFalse (by intro hc; cases hc; exact h rfl)
    | Except.error _, Except.ok _ => Decidable.isFalse (by intro hc; cases hc)
    | Except.ok _, Except.error _ => Decidable.isFalse (by intro hc; cases hc)

/-- The observable outcome of one run of the handler: the store after the run, the
messages written to the stream in order, and the exit point (with the updated
channel on success). -/
structure HandlerOutcome where
  db : Store
  sent : List OutMsg
  result : Except HandlerErr Channel
deriving DecidableEq

/-- The node state the handler consumes. -/
structure NodeState where
  channels : List (Hash × Channel)
  db : Store
  params : Params
  ts : TxScript

/-- Modelled from the spec: PaymentChannelNode.GetChannel is code of this repository
that is not under src/; the spec's store exposes point lookup by channel id. -/
def getChannel (node : NodeState) (id : Hash) : Option Channel :=
  (node.channels.find? (fun p => p.1 = id)).map Prod.snd

/-- The per-run inputs of the handler that Go draws from the stream, the RNG and
the clock: the decoded proposal payload (none models an unmarshal failure), the
stream's remote peer, the freshly generated local revocation key, and the second
read (none models a timeout or read error). -/
structure UpdateMsgInput where
  payload : Option ChannelUpdateProposal
  sender : String
  freshRevocationKey : PrivateKey
  reply : Option ReplyMsg

/-- handleChannelUpdateProposalMessage: the full inbound update exchange.  Mirrors
net.go: validate, apply the balance shift in memory, rotate the remote revocation
pubkey, rebuild and check our commitment, rotate the local revocation key, sign
their commitment, send UpdateProposalAccept, read FinalizeUpdate, store the revealed
revocation key under its breach address, bump the counter and persist. -/
def handleChannelUpdateProposalMessage (node : NodeState) (inp : UpdateMsgInput) :
    HandlerOutcome :=
  match inp.payload with
  | none => ⟨node.db, [OutMsg.errorOut "Invalid message payload"], Except.error HandlerErr.invalidPayload⟩
  | some u =>
    match newHashFromStr u.channelID with
    | none => ⟨node.db, [OutMsg.errorOut "Invalid channel ID"], Except.error HandlerErr.invalidChannelID⟩
    | some channelID =>
      match getChannel node channelID with
      | none => ⟨node.db, [OutMsg.errorOut "Invalid channel ID"], Except.error HandlerErr.channelNotFound⟩
      | some channel0 =>
        if channel0.RemotePeerID ≠ inp.sender then
          ⟨node.db, [], Except.error HandlerErr.wrongSender⟩
        else if u.amount > channel0.RemoteBalance ∨ u.amount ≤ 0 then
          ⟨node.db, [OutMsg.errorOut "Invalid amount"], Except.error HandlerErr.invalidAmount⟩
        else
          let channel1 := { channel0 with
            RemoteBalance := channel0.RemoteBalance - u.amount
            LocalBalance := channel0.LocalBalance + u.amount }
          match parsePubKey u.newRevocationPubkey with
          | none => ⟨node.db, [OutMsg.errorOut "Invalid revocation pubkey"], Except.error HandlerErr.invalidRevPubkey⟩
          | some newRemoteRevocationPubkey =>
            let oldRemoteRevocationPubkey := channel1.RemoteRevocationPubkey.compressed
            let channel2 := { channel1 with RemoteRevocationPubkey := newRemoteRevocationPubkey }
            match buildCommitmentTransaction channel2 true node.params node.ts with
            | Except.error _ =>
              ⟨node.db, [OutMsg.errorOut "Invalid commitment signature"], Except.error HandlerErr.localBuildFailed⟩
            | Except.ok (newCommitmentTx0, localCommitmentSig) =>
              let scriptSig := commitmentScriptSigFor channel2 u.signature localCommitmentSig
              let newCommitmentTx := { newCommitmentTx0 with
                txIn := newCommitmentTx0.txIn.map (fun i => { i with signatureScript := scriptSig }) }
              if ¬ validateCommitmentSignature node.ts channel2 newCommitmentTx then
                ⟨node.db, [OutMsg.errorOut "Invalid commitment signature"], Except.error HandlerErr.invalidSignature⟩
              else
                let channel3 := { channel2 with CommitmentTx := newCommitmentTx }
                let oldRevocationPrivkey := channel3.LocalRevocationPrivkey.serialize
                let channel4 := { channel3 with LocalRevocationPrivkey := inp.freshRevocationKey }
                match buildCommitmentTransaction channel4 false node.params node.ts with
                | Except.error _ => ⟨node.db, [], Except.error HandlerErr.remoteBuildFailed⟩
                | Except.ok (_, remoteCommitmentSig) =>
                  let acceptMsg := OutMsg.updateProposalAccept
                    channel4.LocalRevocationPrivkey.pubKey.compressed
                    remoteCommitmentSig oldRevocationPrivkey
                  match inp.reply with
                  | none => ⟨node.db, [acceptMsg], Except.error HandlerErr.readTimeout⟩
                  | some (ReplyMsg.errorReply _) =>
                    ⟨node.db, [acceptMsg], Except.error HandlerErr.remoteSentError⟩
                  | some ReplyMsg.otherType =>
                    ⟨node.db, [acceptMsg, OutMsg.errorOut "Invalid message type"], Except.error HandlerErr.wrongMessageType⟩
                  | some (ReplyMsg.finalizeReply none) =>
                    ⟨node.db, [acceptMsg, OutMsg.errorOut "Invalid finalizeMessage message"], Except.error HandlerErr.invalidFinalizePayload⟩
                  | some (ReplyMsg.finalizeReply (some revealedBytes)) =>
                    let remoteRevocationPrivkey := privKeyFromBytes revealedBytes
                    if remoteRevocationPrivkey.pubKey.compressed ≠ oldRemoteRevocationPubkey then
                      ⟨node.db, [acceptMsg], Except.error HandlerErr.invalidRevealedKey⟩
                    else
                      let breachAddr := (buildBreachRemedyAddress remoteRevocationPrivkey.pubKey
                        channel4.LocalPrivkey.pubKey channel4.RemotePubkey channel4.Delay
                        node.params).1
                      let channel5 := { channel4 with
                        RemoteRevocationPrivkeys :=
                          assocPut channel4.RemoteRevocationPrivkeys breachAddr
                            remoteRevocationPrivkey }
                      let channel6 := { channel5 with
                        TransactionCount := channel5.TransactionCount + 1 }
                      ⟨saveChannel node.db channel6 none, [acceptMsg], Except.ok channel6⟩

/-- A public key is well-formed when it carries a canonical compressed point. -/
def pubKeyWF (pk : PublicKey) : Prop :=
  pk.compressed.length = 33 ∧ (pk.compressed.head? = some 2 ∨ pk.compressed.head? = some 3)

instance (pk : PublicKey) : Decidable (pubKeyWF pk) := by unfold pubKeyWF; infer_instance

/-- A private key is well-formed when its scalar fits the 32-byte serialization. -/
def privKeyWF (sk : PrivateKey) : Prop := sk.d < 256 ^ 32

instance (sk : PrivateKey) : Decidable (privKeyWF sk) := by unfold privKeyWF; infer_instance

/-- An address is well-formed for given network parameters when it carries that
network's tag and actual bytes. -/
def addressWF (a : Address) (params : Params) : Prop :=
  a.netID = params.netID ∧ a.netID < 256 ∧ bytesWF a.scriptHash

instance (a : Address) (params : Params) : Decidable (addressWF a params) := by
  unfold addressWF; infer_instance

/-- A channel record is well-formed for given network parameters: its stored keys
are canonical and its addresses belong to that network. -/
def channelWF (c : Channel) (params : Params) : Prop :=
  pubKeyWF c.RemotePubkey ∧ pubKeyWF c.RemoteRevocationPubkey ∧
  privKeyWF c.LocalPrivkey ∧ privKeyWF c.LocalRevocationPrivkey ∧
  addressWF c.ChannelAddress params ∧
  ∀ p ∈ c.RemoteRevocationPrivkeys, addressWF p.1 params ∧ privKeyWF p.2

instance (c : Channel) (params : Params) : Decidable (channelWF c params) := by
  unfold channelWF; infer_instance

/-- The revocation-map invariant of the spec: every stored secret's public key is
the revocation pubkey that parameterized the breach-remedy address keying it. -/
def revMapInvariant (c : Channel) (params : Params) : Prop :=
  ∀ p ∈ c.RemoteRevocationPrivkeys, ∃ commitmentPubkey delayPubkey delay,
    p.1 = (buildBreachRemedyAddress p.2.pubKey commitmentPubkey delayPubkey delay params).1

/-- The fee rule exactly as the spec words it, for comparison with the code: with
one output subtract the entire fee; with two subtract fee over two (integer
division) from each, any remainder borne by the first output. -/
def specFeeOutputValues (preFee : List Int) (fee : Int) : List Int :=
  match preFee with
  | [v] => [v - fee]
  | [v1, v2] => [v1 - (fee - Int.tdiv fee 2), v2 - Int.tdiv fee 2]
  | l => l

/-- A trivial instantiation of the external txscript behaviour, for concrete runs:
a constant signature and an engine that accepts. -/
def sampleTxScript : TxScript := ⟨fun _ _ _ _ => [1], fun _ _ _ => true⟩

/-- Concrete network parameters for concrete runs. -/
def netParams : Params := ⟨5⟩

/-- Concrete channel id for concrete runs. -/
def sampleId : Hash := List.range 32

/-- Concrete channel fixture: an inbound open channel between scalar keys 11/22
with revocation scalars 33/44, balances 400000/600000 and a 25-byte remote payout
script. -/
def sampleChannel : Channel :=
  { ID := sampleId
    Status := ChannelStatus.Open
    CreationDate := 0
    Inbound := true
    AddressID := []
    RemotePeerID := "peerX"
    RemotePubkey := PrivateKey.pubKey ⟨22⟩
    LocalPrivkey := ⟨11⟩
    RemoteRevocationPrivkeys := []
    RemoteRevocationPubkey := PrivateKey.pubKey ⟨44⟩
    LocalRevocationPrivkey := ⟨33⟩
    Delay := 6
    FeePerByte := 5
    DustLimit := 1000
    RemotePayoutScript := List.replicate 25 0
    LocalPayoutScript := List.replicate 25 1
    RemoteBalance := 600000
    LocalBalance := 400000
    CommitmentTx := MsgTx.zero
    FundingTxid := zeroHash
    FundingOutpoint := ⟨zeroHash, 0⟩
    PayoutTxid := zeroHash
    TransactionCount := 0
    ChannelAddress := ⟨5, [9]⟩
    RedeemScript := [82] }

/-- Concrete node fixture holding the sample channel both in memory and in the
open-channels bucket. -/
def sampleNode : NodeState :=
  ⟨[(sampleId, sampleChannel)], ⟨[(sampleId, serializeChannel sampleChannel)], [], []⟩,
    netParams, sampleTxScript⟩

/-- Concrete update-proposal input that drives the handler through the fully
successful exchange: amount 500, a fresh remote revocation pubkey from scalar 66,
a reply revealing the scalar-44 revocation secret, and a fresh local key 55. -/
def sampleInput : UpdateMsgInput :=
  { payload := some ⟨hashDisplay sampleId, 500, (PrivateKey.pubKey ⟨66⟩).compressed, [7, 7]⟩
    sender := "peerX"
    freshRevocationKey := ⟨55⟩
    reply := some (ReplyMsg.finalizeReply (some (PrivateKey.serialize ⟨44⟩))) }

/-- The sample input with the proposed amount replaced. -/
def sampleInputAmount (a : Int) : UpdateMsgInput :=
  { sampleInput with payload := some ⟨hashDisplay sampleId, a, (PrivateKey.pubKey ⟨66⟩).compressed, [7, 7]⟩ }

/-- Whether a handler exit point is the success return. -/
def resultIsOk : Except HandlerErr Channel → Bool
  | Except.ok _ => true
  | Except.error _ => false

/-- The channel record produced by the fully successful sample exchange. -/
def sampleFinalChannel : Channel :=
  match (handleChannelUpdateProposalMessage sampleNode sampleInput).result with
  | Except.ok c => c
  | Except.error _ => sampleChannel

/-- The sample channel marked Closed, as it would be written after closure. -/
def sampleClosedChannel : Channel := { sampleChannel with Status := ChannelStatus.Closed }

/-- A store that already holds the sample channel's Open record, the durable state
just before a closing write. -/
def sampleStoreWithOpenRecord : Store :=
  ⟨[(sampleId, serializeChannel sampleChannel)], [], []⟩

/-- The channel record as it stands when the update handler persists it: balances
shifted by the proposed amount, rotated revocation keys on both sides, the newly
countersigned commitment installed, the revealed secret stored under its breach
address, and the transaction counter bumped. -/
def updatedChannel (c : Channel) (u : ChannelUpdateProposal) (newPub : PublicKey)
    (tx1 : MsgTx) (sig1 : Bytes) (fresh : PrivateKey) (rb : Bytes) (params : Params) :
    Channel :=
  { c with
    RemoteBalance := c.RemoteBalance - u.amount
    LocalBalance := c.LocalBalance + u.amount
    RemoteRevocationPubkey := newPub
    CommitmentTx := { tx1 with txIn := tx1.txIn.map (fun i => { i with signatureScript := commitmentScriptSigFor c u.signature sig1 }) }
    LocalRevocationPrivkey := fresh
    RemoteRevocationPrivkeys := assocPut c.RemoteRevocationPrivkeys
      ((buildBreachRemedyAddress (privKeyFromBytes rb).pubKey c.LocalPrivkey.pubKey
        c.RemotePubkey c.Delay params).1) (privKeyFromBytes rb)
    TransactionCount := c.TransactionCount + 1 }

/-- The sample channel with one stored revocation secret, exercising the
address-keyed map in the codec. -/
def sampleSecretChannel : Channel :=
  { sampleChannel with RemoteRevocationPrivkeys := [(⟨5, [1, 2, 3]⟩, ⟨77⟩)] }

/-- The transaction built from the sample channel for the local node. -/
def sampleBuiltTx : MsgTx :=
  match buildCommitmentTransaction sampleChannel true netParams sampleTxScript with
  | Except.ok p => p.1
  | Except.error _ => MsgTx.zero

/-- The signature produced alongside sampleBuiltTx. -/
def sampleBuiltSig : Bytes :=
  match buildCommitmentTransaction sampleChannel true netParams sampleTxScript with
  | Except.ok p => p.2
  | Except.error _ => []

theorem hexCharVal_hexDigitChar : ∀ n, n < 16 → hexCharVal (hexDigitChar n) = some n := by
  decide

theorem hexDecodeChars_hexEncodeChars (bs : Bytes) (h : bytesWF bs) :
    hexDecodeChars (hexEncodeChars bs) = some bs := by
  induction bs with
  | nil => simp [hexEncodeChars, hexDecodeChars]
  | cons b bs ih =>
    have hb : b < 256 := h b (List.mem_cons_self b bs)
    have hhi : b / 16 < 16 := Nat.div_lt_of_lt_mul hb
    have hlo : b % 16 < 16 := Nat.mod_lt _ (by norm_num)
    have hrest : bytesWF bs := fun x hx => h x (List.mem_cons_of_mem _ hx)
    simp only [hexEncodeChars, hexDecodeChars, hexCharVal_hexDigitChar _ hhi,
      hexCharVal_hexDigitChar _ hlo, ih hrest, Nat.div_add_mod]

theorem hexEncodeChars_length (bs : Bytes) : (hexEncodeChars bs).length = 2 * bs.length := by
  induction bs with
  | nil => rfl
  | cons b bs ih => simp [hexEncodeChars, ih]; ring

theorem newHashFromStr_hexEncode (d : Bytes) (hlen : d.length = 32) (hwf : bytesWF d) :
    newHashFromStr (hexEncode d) = some d.reverse := by
  have h1 : (hexEncode d).toList = hexEncodeChars d := rfl
  have h2 : (hexEncodeChars d).length = 64 := by rw [hexEncodeChars_length, hlen]
  simp only [newHashFromStr, h1, h2]
  norm_num
  simp [hexDecodeChars_hexEncodeChars d hwf]

theorem hashDisplay_newHashFromStr (d : Bytes) (hlen : d.length = 32) (hwf : bytesWF d) :
    ∃ h : Hash, newHashFromStr (hexEncode d) = some h ∧ hashDisplay h = hexEncode d := by
  refine ⟨d.reverse, newHashFromStr_hexEncode d hlen hwf, ?_⟩
  simp [hashDisplay]

theorem natToBytesBE_length (k d : Nat) : (natToBytesBE k d).length = k := by
  induction k generalizing d with
  | zero => rfl
  | succ k ih => simp [natToBytesBE, ih]

theorem natToBytesBE_wf (k d : Nat) : bytesWF (natToBytesBE k d) := by
  induction k generalizing d with
  | zero => intro b hb; simp [natToBytesBE] at hb
  | succ k ih =>
    intro b hb
    simp only [natToBytesBE, List.mem_cons] at hb
    rcases hb with h | h
    · subst h; exact Nat.mod_lt _ (by norm_num)
    · exact ih d b h

theorem foldl_natToBytesBE (k d a : Nat) :
    (natToBytesBE k d).foldl (fun a b => 256 * a + b) a = a * 256 ^ k + d % 256 ^ k := by
  induction k generalizing a with
  | zero => simp [natToBytesBE, Nat.mod_one]
  | succ k ih =>
    simp only [natToBytesBE, List.foldl_cons, ih]
    have e1 : (256 : Nat) ^ (k + 1) = 256 ^ k * 256 := pow_succ 256 k
    have e2 : d % (256 ^ k * 256) / 256 ^ k = d / 256 ^ k % 256 :=
      Nat.mod_mul_right_div_self d (256 ^ k) 256
    have e3 : d % (256 ^ k * 256) % 256 ^ k = d % 256 ^ k :=
      Nat.mod_mod_of_dvd d ⟨256, rfl⟩
    have h : d % 256 ^ (k + 1) = 256 ^ k * (d / 256 ^ k % 256) + d % 256 ^ k := by
      calc d % 256 ^ (k + 1) = d % (256 ^ k * 256) := by rw [e1]
        _ = 256 ^ k * (d % (256 ^ k * 256) / 256 ^ k) + d % (256 ^ k * 256) % 256 ^ k :=
            (Nat.div_add_mod _ _).symm
        _ = 256 ^ k * (d / 256 ^ k % 256) + d % 256 ^ k := by rw [e2, e3]
    rw [h]
    ring

theorem bytesToNat_natToBytesBE (k d : Nat) (h : d < 256 ^ k) :
    bytesToNat (natToBytesBE k d) = d := by
  have := foldl_natToBytesBE k d 0
  simpa [bytesToNat, Nat.mod_eq_of_lt h] using this

theorem privKeyFromBytes_serialize (sk : PrivateKey) (h : sk.d < 256 ^ 32) :
    privKeyFromBytes sk.serialize = sk := by
  simp [privKeyFromBytes, PrivateKey.serialize, bytesToNat_natToBytesBE 32 sk.d h]

theorem parsePubKey_compressed (pk : PublicKey) (h1 : pk.compressed.length = 33)
    (h2 : pk.compressed.head? = some 2 ∨ pk.compressed.head? = some 3) :
    parsePubKey pk.compressed = some pk := by
  simp [parsePubKey, h1, h2]

theorem sha256_length (msg : Bytes) : (sha256 msg).length = 32 := natToBytesBE_length _ _

theorem sha256_wf (msg : Bytes) : bytesWF (sha256 msg) := natToBytesBE_wf _ _

theorem decodeAddress_encode (a : Address) (params : Params) (hnet : a.netID = params.netID)
    (hn : a.netID < 256) (hwf : bytesWF a.scriptHash) :
    decodeAddress a.encode params = some a := by
  have h : bytesWF (a.netID :: a.scriptHash) := by
    intro b hb
    rcases List.mem_cons.mp hb with h | h
    · subst h; exact hn
    · exact hwf b h
  have hdec : hexDecodeChars (hexEncode (a.netID :: a.scriptHash)).data =
      some (a.netID :: a.scriptHash) := hexDecodeChars_hexEncodeChars _ h
  simp only [decodeAddress, Address.encode, String.toList, hdec]
  rw [if_pos hnet]

theorem assocGet_assocPut_self {κ α : Type} [DecidableEq κ] (l : List (κ × α)) (k : κ)
    (v : α) : assocGet (assocPut l k v) k = some v := by
  induction l with
  | nil => simp [assocPut, assocGet, List.find?]
  | cons p rest ih =>
    by_cases h : p.1 = k
    · simp [assocPut, h, assocGet, List.find?]
    · simp only [assocPut, if_neg h, assocGet, List.find?] at ih ⊢
      simp only [show (decide (p.1 = k)) = false from decide_eq_false h]
      exact ih

theorem assocGet_assocPut_ne {κ α : Type} [DecidableEq κ] (l : List (κ × α)) (k k2 : κ)
    (v : α) (h : k2 ≠ k) : assocGet (assocPut l k v) k2 = assocGet l k2 := by
  induction l with
  | nil => simp [assocPut, assocGet, List.find?, show (decide (k = k2)) = false from
      decide_eq_false (fun hc => h hc.symm)]
  | cons p rest ih =>
    by_cases hp : p.1 = k
    · simp only [assocPut, if_pos hp, assocGet, List.find?]
      rw [show (decide (k = k2)) = false from decide_eq_false (fun hc => h hc.symm)]
      rw [show (decide (p.1 = k2)) = false from
        decide_eq_false (fun hc => h (by rw [← hc]; exact hp))]
    · simp only [assocPut, if_neg hp, assocGet, List.find?] at ih ⊢
      cases hd : decide (p.1 = k2) with
      | true => rfl
      | false => exact ih

theorem mem_assocPut {κ α : Type} [DecidableEq κ] (l : List (κ × α)) (k : κ) (v : α)
    (p : κ × α) (h : p ∈ assocPut l k v) : p = (k, v) ∨ p ∈ l := by
  induction l with
  | nil => simp [assocPut] at h; simp [h]
  | cons q rest ih =>
    by_cases hq : q.1 = k
    · simp only [assocPut, if_pos hq, List.mem_cons] at h
      rcases h with h | h
      · exact Or.inl h
      · exact Or.inr (List.mem_cons_of_mem _ h)
    · simp only [assocPut, if_neg hq, List.mem_cons] at h
      rcases h with h | h
      · exact Or.inr (h ▸ List.mem_cons_self _ _)
      · rcases ih h with h2 | h2
        · exact Or.inl h2
        · exact Or.inr (List.mem_cons_of_mem _ h2)

/-- C10: saveChannel stores a channel under its id in the open-channels bucket if
and only if its status is exactly Open; a channel with any other status — Opening,
PendingClosure and Error, not only Closed — is written to the closed-channels
bucket, and the other bucket is untouched by the write. -/
theorem saveChannel_bucket_selection (db : Store) (ch : Channel)
    (t : Option ChannelTransaction) :
    (ch.Status = ChannelStatus.Open →
      bucketGet (saveChannel db ch t).openChannels ch.ID = some (serializeChannel ch) ∧
      (saveChannel db ch t).closedChannels = db.closedChannels) ∧
    (ch.Status ≠ ChannelStatus.Open →
      bucketGet (saveChannel db ch t).closedChannels ch.ID = some (serializeChannel ch) ∧
      (saveChannel db ch t).openChannels = db.openChannels) := by
  constructor
  · intro h
    cases t <;> simp [saveChannel, h, bucketGet, bucketPut, assocGet_assocPut_self]
  · intro h
    cases t <;> simp [saveChannel, h, bucketGet, bucketPut, assocGet_assocPut_self]

theorem saveChannel_bucket_selection_witness :
    bucketGet (saveChannel sampleStoreWithOpenRecord sampleClosedChannel none).closedChannels
        sampleClosedChannel.ID = some (serializeChannel sampleClosedChannel) ∧
    (saveChannel sampleStoreWithOpenRecord sampleClosedChannel none).openChannels
        = sampleStoreWithOpenRecord.openChannels :=
  (saveChannel_bucket_selection sampleStoreWithOpenRecord sampleClosedChannel none).2
    (by decide)

/-- C1: a store write of a channel whose status has transitioned to Closed puts the
record into the closed-channels bucket but does not remove the prior record from
the open-channels bucket: at the concrete input below, both buckets hold a record
for the same channel id after the write, contradicting the claimed single-record
outcome.  The spec's store design states the Open record must be removed, so this
is a bug in saveChannel. -/
theorem saveChannel_closed_leaves_stale_open_record :
    bucketGet (saveChannel sampleStoreWithOpenRecord sampleClosedChannel none).openChannels
        sampleId = some (serializeChannel sampleChannel) ∧
    bucketGet (saveChannel sampleStoreWithOpenRecord sampleClosedChannel none).closedChannels
        sampleId = some (serializeChannel sampleClosedChannel) := by
  decide

/-- C3: buildCommitmentTransaction omits exactly the outputs whose pre-fee value is
at or below the dust limit, and it returns the fatal both-outputs-below-dust error
if and only if both the direct output's and the breach output's pre-fee values are
at or below the dust limit. -/
theorem buildCommitment_dust_rule (c : Channel) (b : Bool) (params : Params)
    (ts : TxScript) :
    ((standardValueOf c b ≤ c.DustLimit ∧ breachValueOf c b ≤ c.DustLimit) →
      buildCommitmentTransaction c b params ts =
        Except.error "both outputs below dust threshold") ∧
    (∀ e, buildCommitmentTransaction c b params ts = Except.error e →
      e = "both outputs below dust threshold" ∧
      standardValueOf c b ≤ c.DustLimit ∧ breachValueOf c b ≤ c.DustLimit) ∧
    (∀ tx sig, buildCommitmentTransaction c b params ts = Except.ok (tx, sig) →
      tx.txOut.map TxOut.pkScript =
        (if standardValueOf c b > c.DustLimit then [commitmentStandardScript c b] else []) ++
        (if breachValueOf c b > c.DustLimit then [commitmentBreachScript c b params] else [])) := by
  refine ⟨fun h => ?_, fun e he => ?_, fun tx sig h => ?_⟩
  · have hs : ¬ standardValueOf c b > c.DustLimit := not_lt.mpr h.1
    have hb : ¬ breachValueOf c b > c.DustLimit := not_lt.mpr h.2
    simp [buildCommitmentTransaction, preFeeOutputs, hs, hb]
  · by_cases hsv : standardValueOf c b > c.DustLimit <;>
      by_cases hbv : breachValueOf c b > c.DustLimit <;>
      simp [buildCommitmentTransaction, preFeeOutputs, hsv, hbv] at he <;>
      exact ⟨he.symm, not_lt.mp hsv, not_lt.mp hbv⟩
  · by_cases hsv : standardValueOf c b > c.DustLimit <;>
      by_cases hbv : breachValueOf c b > c.DustLimit <;>
      simp [buildCommitmentTransaction, preFeeOutputs, hsv, hbv] at h ⊢ <;>
      rcases h with ⟨h1, h2⟩ <;> rw [← h1] <;> simp

theorem buildCommitment_dust_rule_witness :
    buildCommitmentTransaction
        { sampleChannel with RemoteBalance := 900, LocalBalance := 800 } true netParams
        sampleTxScript = Except.error "both outputs below dust threshold" :=
  (buildCommitment_dust_rule
    { sampleChannel with RemoteBalance := 900, LocalBalance := 800 } true netParams
    sampleTxScript).1 (by decide)

/-- C2 (amended): for every channel record on which buildCommitmentTransaction
succeeds, with fee = fee_per_byte × estimated size: if exactly one output remains
the entire fee is subtracted from it, and if two outputs remain, fee/2 (truncating
integer division) is subtracted from each — the odd remainder is charged to
neither output, so the total reduction is 2·(fee/2) rather than fee. -/
theorem buildCommitment_fee_split (c : Channel) (b : Bool) (params : Params)
    (ts : TxScript) (tx : MsgTx) (sig : Bytes)
    (h : buildCommitmentTransaction c b params ts = Except.ok (tx, sig)) :
    ((preFeeOutputs c b params).length = 1 →
      tx.txOut.map TxOut.value = (preFeeOutputs c b params).map
        (fun o => o.value - c.FeePerByte *
          (estimateSerializeSize 1 (preFeeOutputs c b params) false : Int))) ∧
    ((preFeeOutputs c b params).length = 2 →
      tx.txOut.map TxOut.value = (preFeeOutputs c b params).map
        (fun o => o.value - Int.tdiv (c.FeePerByte *
          (estimateSerializeSize 1 (preFeeOutputs c b params) false : Int)) 2) ∧
      ((preFeeOutputs c b params).map TxOut.value).sum - (tx.txOut.map TxOut.value).sum =
        2 * Int.tdiv (c.FeePerByte *
          (estimateSerializeSize 1 (preFeeOutputs c b params) false : Int)) 2) := by
  simp only [buildCommitmentTransaction] at h
  by_cases h0 : (preFeeOutputs c b params).length = 0
  · simp [h0] at h
  · rw [if_neg h0] at h
    simp only [Except.ok.injEq, Prod.mk.injEq] at h
    rcases h with ⟨h1, _⟩
    refine ⟨fun hl1 => ?_, fun hl2 => ?_⟩
    · rw [← h1]
      simp [hl1, List.map_map, Function.comp]
    · have hne1 : (preFeeOutputs c b params).length ≠ 1 := by rw [hl2]; omega
      rcases List.length_eq_two.mp hl2 with ⟨o1, o2, heq⟩
      rw [← h1]
      simp only [if_neg hne1]
      constructor
      · simp [List.map_map, Function.comp]
      · rw [heq]
        simp
        ring

theorem buildCommitment_fee_split_witness :
    (preFeeOutputs sampleChannel true netParams).length = 2 ∧
    sampleBuiltTx.txOut.map TxOut.value = (preFeeOutputs sampleChannel true netParams).map
      (fun o => o.value - Int.tdiv (sampleChannel.FeePerByte *
        (estimateSerializeSize 1 (preFeeOutputs sampleChannel true netParams) false : Int)) 2) :=
  ⟨by decide,
    ((buildCommitment_fee_split sampleChannel true netParams sampleTxScript
      sampleBuiltTx sampleBuiltSig (by decide)).2 (by decide)).1⟩

/-- C2 counterexample: at the concrete sample channel the estimated size is 429 so
the fee 5 × 429 = 2145 is odd; the code subtracts 1072 from each of the two outputs
while the claim's rule makes the first output bear the remainder and lose 1073, so
the produced first output value 598928 differs from the claimed 598927. -/
theorem buildCommitment_remainder_claim_false :
    (buildCommitmentTransaction sampleChannel true netParams sampleTxScript).map
        (fun p => p.1.txOut.map TxOut.value) = Except.ok [598928, 398928] ∧
    (preFeeOutputs sampleChannel true netParams).map TxOut.value = [600000, 400000] ∧
    sampleChannel.FeePerByte *
        (estimateSerializeSize 1 (preFeeOutputs sampleChannel true netParams) false : Int)
      = 2145 ∧
    specFeeOutputValues [600000, 400000] 2145 = [598927, 398928] ∧
    ([598928, 398928] : List Int) ≠ [598927, 398928] := by
  refine ⟨by decide, by decide, by decide, by decide, by decide⟩

/-- C7: every channel created by the inbound ChannelOpen handler has as id the
SHA-256 of the funder's compressed channel pubkey concatenated with the fundee's —
on an inbound channel the remote peer is the funder and the fresh local key the
fundee — and the display encoding shows the digest bytes unreversed. -/
theorem incoming_channel_id_sha256 (params : Params) (addressID : Bytes)
    (remoteChannelPubkey remoteRevocationPubkey : PublicKey) (dustLimt feePerByte : Int)
    (delay : Nat) (remotePayoutScript : Bytes) (remotePeerID : String)
    (channelPrivateKey firstRevocationKey : PrivateKey) (payoutScript : Bytes)
    (creationDate : Int) :
    ∃ ch, initNewIncomingChannel params addressID remoteChannelPubkey
        remoteRevocationPubkey dustLimt feePerByte delay remotePayoutScript remotePeerID
        channelPrivateKey firstRevocationKey payoutScript creationDate = Except.ok ch ∧
      ch.ID = (sha256 (remoteChannelPubkey.compressed ++
        channelPrivateKey.pubKey.compressed)).reverse ∧
      hashDisplay ch.ID = hexEncode (sha256 (remoteChannelPubkey.compressed ++
        channelPrivateKey.pubKey.compressed)) ∧
      ch.Inbound = true := by
  have hlen := sha256_length
    (remoteChannelPubkey.compressed ++ channelPrivateKey.pubKey.compressed)
  have hwf := sha256_wf
    (remoteChannelPubkey.compressed ++ channelPrivateKey.pubKey.compressed)
  have hparse := newHashFromStr_hexEncode _ hlen hwf
  simp only [initNewIncomingChannel, hparse]
  exact ⟨_, rfl, rfl, by simp [hashDisplay], rfl⟩

theorem decodeRevocationMap_map_encode (l : List (Address × PrivateKey)) (params : Params)
    (h : ∀ p ∈ l, addressWF p.1 params ∧ privKeyWF p.2) :
    decodeRevocationMap (l.map (fun p => (p.1.encode, p.2.serialize))) params = some l := by
  induction l with
  | nil => rfl
  | cons p rest ih =>
    obtain ⟨⟨hnet, hn, hwf⟩, hd⟩ := h p (List.mem_cons_self p rest)
    have hr : ∀ q ∈ rest, addressWF q.1 params ∧ privKeyWF q.2 :=
      fun q hq => h q (List.mem_cons_of_mem _ hq)
    simp [decodeRevocationMap, decodeAddress_encode p.1 params hnet hn hwf, ih hr,
      privKeyFromBytes_serialize p.2 hd]

/-- C9: for every well-formed channel record, deserializing its serialization with
the network parameters returns the record itself — bit-exact public fields, private
keys recovered by re-derivation from their 32-byte scalars, and the address-keyed
revocation map re-parsed losslessly from its string encoding. -/
theorem channel_codec_roundtrip (c : Channel) (params : Params) (h : channelWF c params) :
    deserializeChannel (serializeChannel c) params = some c := by
  obtain ⟨hrp, hrrp, hlp, hlrp, ⟨hnet, hn, hwfa⟩, hmap⟩ := h
  simp [deserializeChannel, serializeChannel,
    parsePubKey_compressed _ hrp.1 hrp.2,
    parsePubKey_compressed _ hrrp.1 hrrp.2,
    decodeAddress_encode _ _ hnet hn hwfa,
    decodeRevocationMap_map_encode _ _ hmap,
    privKeyFromBytes_serialize _ hlp, privKeyFromBytes_serialize _ hlrp]

theorem channel_codec_roundtrip_witness :
    deserializeChannel (serializeChannel sampleSecretChannel) netParams
      = some sampleSecretChannel :=
  channel_codec_roundtrip sampleSecretChannel netParams (by decide)

theorem buildCommitment_txIn (c : Channel) (b : Bool) (params : Params) (ts : TxScript)
    (tx : MsgTx) (sig : Bytes)
    (h : buildCommitmentTransaction c b params ts = Except.ok (tx, sig)) :
    tx.txIn = [⟨c.FundingOutpoint, [], maxTxInSequenceNum⟩] := by
  simp only [buildCommitmentTransaction] at h
  by_cases h0 : (preFeeOutputs c b params).length = 0
  · simp [h0] at h
  · rw [if_neg h0] at h
    simp only [Except.ok.injEq, Prod.mk.injEq] at h
    rw [← h.1]

theorem handleUpdate_ok_spec (node : NodeState) (inp : UpdateMsgInput)
    (u : ChannelUpdateProposal) (cid : Hash) (c : Channel) (c2 : Channel)
    (out : HandlerOutcome)
    (hout : handleChannelUpdateProposalMessage node inp = out)
    (hp : inp.payload = some u) (hcid : newHashFromStr u.channelID = some cid)
    (hc : getChannel node cid = some c)
    (hres : out.result = Except.ok c2) :
    ∃ newPub tx1 sig1 rb,
      c.RemotePeerID = inp.sender ∧
      (0 < u.amount ∧ u.amount ≤ c.RemoteBalance) ∧
      parsePubKey u.newRevocationPubkey = some newPub ∧
      buildCommitmentTransaction
        { c with
          RemoteBalance := c.RemoteBalance - u.amount
          LocalBalance := c.LocalBalance + u.amount
          RemoteRevocationPubkey := newPub }
        true node.params node.ts = Except.ok (tx1, sig1) ∧
      inp.reply = some (ReplyMsg.finalizeReply (some rb)) ∧
      (privKeyFromBytes rb).pubKey.compressed = c.RemoteRevocationPubkey.compressed ∧
      c2 = updatedChannel c u newPub tx1 sig1 inp.freshRevocationKey rb node.params ∧
      out.db = saveChannel node.db c2 none := by
  simp only [handleChannelUpdateProposalMessage, hp, hcid, hc] at hout
  by_cases h1 : c.RemotePeerID ≠ inp.sender
  · rw [if_pos h1] at hout
    rw [← hout] at hres
    simp at hres
  rw [if_neg h1] at hout
  by_cases h2 : u.amount > c.RemoteBalance ∨ u.amount ≤ 0
  · rw [if_pos h2] at hout
    rw [← hout] at hres
    simp at hres
  rw [if_neg h2] at hout
  push_neg at h2
  cases hpk : parsePubKey u.newRevocationPubkey with
  | none =>
    simp only [hpk] at hout
    rw [← hout] at hres
    simp at hres
  | some newPub =>
    simp only [hpk] at hout
    split at hout
    · rw [← hout] at hres
      simp at hres
    next tx1 sig1 hb1 =>
      split at hout
      · rw [← hout] at hres
        simp at hres
      next hvalid =>
        split at hout
        · rw [← hout] at hres
          simp at hres
        next tx2 sig2 hb2 =>
          cases hr : inp.reply with
          | none =>
            simp only [hr] at hout
            rw [← hout] at hres
            simp at hres
          | some r =>
            cases r with
            | errorReply m =>
              simp only [hr] at hout
              rw [← hout] at hres
              simp at hres
            | otherType =>
              simp only [hr] at hout
              rw [← hout] at hres
              simp at hres
            | finalizeReply o =>
              cases o with
              | none =>
                simp only [hr] at hout
                rw [← hout] at hres
                simp at hres
              | some rb =>
                simp only [hr] at hout
                split at hout
                · rw [← hout] at hres
                  simp at hres
                next hk =>
                  simp only [ne_eq, not_not] at hk
                  rw [← hout] at hres
                  simp only [Except.ok.injEq] at hres
                  refine ⟨newPub, tx1, sig1, rb, not_not.mp h1, ⟨by omega, by omega⟩,
                    rfl, hb1, rfl, ?_, ?_, ?_⟩
                  · simpa using hk
                  · rw [← hres]
                    exact rfl
                  · rw [← hout, ← hres]

theorem handleUpdate_error_db (node : NodeState) (inp : UpdateMsgInput)
    (out : HandlerOutcome) (hout : handleChannelUpdateProposalMessage node inp = out)
    (e : HandlerErr) (hres : out.result = Except.error e) : out.db = node.db := by
  simp only [handleChannelUpdateProposalMessage] at hout
  repeat' split at hout
  all_goals rw [← hout] at hres ⊢
  all_goals simp_all

theorem saveChannel_none_transactions (db : Store) (ch : Channel) :
    (saveChannel db ch none).transactions = db.transactions := by
  unfold saveChannel
  split <;> rfl

theorem handleUpdate_amount_reject (node : NodeState) (inp : UpdateMsgInput)
    (u : ChannelUpdateProposal) (cid : Hash) (c : Channel) (out : HandlerOutcome)
    (hout : handleChannelUpdateProposalMessage node inp = out)
    (hp : inp.payload = some u) (hcid : newHashFromStr u.channelID = some cid)
    (hc : getChannel node cid = some c) (hsender : c.RemotePeerID = inp.sender)
    (hbad : u.amount > c.RemoteBalance ∨ u.amount ≤ 0) :
    out = ⟨node.db, [OutMsg.errorOut "Invalid amount"],
      Except.error HandlerErr.invalidAmount⟩ := by
  simp only [handleChannelUpdateProposalMessage, hp, hcid, hc] at hout
  rw [if_neg (not_not_intro hsender), if_pos hbad] at hout
  exact hout.symm

theorem handleUpdate_amount_accept (node : NodeState) (inp : UpdateMsgInput)
    (u : ChannelUpdateProposal) (cid : Hash) (c : Channel) (out : HandlerOutcome)
    (hout : handleChannelUpdateProposalMessage node inp = out)
    (hp : inp.payload = some u) (hcid : newHashFromStr u.channelID = some cid)
    (hc : getChannel node cid = some c) (hsender : c.RemotePeerID = inp.sender)
    (hgood : ¬(u.amount > c.RemoteBalance ∨ u.amount ≤ 0)) :
    out.result ≠ Except.error HandlerErr.invalidAmount := by
  simp only [handleChannelUpdateProposalMessage, hp, hcid, hc] at hout
  rw [if_neg (not_not_intro hsender), if_neg hgood] at hout
  repeat' split at hout
  all_goals rw [← hout]
  all_goals simp

/-- C4: the handler of an incoming ChannelUpdateProposal on a known channel from
the right sender accepts the proposed amount iff it is positive and at most the
remote balance; an out-of-range amount terminates the exchange with exactly the
Invalid-amount Error reply and leaves the store untouched, before any channel
field has been modified. -/
theorem update_proposal_amount_validation (node : NodeState) (inp : UpdateMsgInput)
    (u : ChannelUpdateProposal) (cid : Hash) (c : Channel) (out : HandlerOutcome)
    (hout : handleChannelUpdateProposalMessage node inp = out)
    (hp : inp.payload = some u) (hcid : newHashFromStr u.channelID = some cid)
    (hc : getChannel node cid = some c) (hsender : c.RemotePeerID = inp.sender) :
    ((u.amount > c.RemoteBalance ∨ u.amount ≤ 0) →
      out = ⟨node.db, [OutMsg.errorOut "Invalid amount"],
        Except.error HandlerErr.invalidAmount⟩) ∧
    ((0 < u.amount ∧ u.amount ≤ c.RemoteBalance) →
      out.result ≠ Except.error HandlerErr.invalidAmount) :=
  ⟨fun hbad => handleUpdate_amount_reject node inp u cid c out hout hp hcid hc hsender hbad,
   fun hgood => handleUpdate_amount_accept node inp u cid c out hout hp hcid hc hsender
     (by omega)⟩

theorem update_proposal_amount_validation_witness :
    (handleChannelUpdateProposalMessage sampleNode (sampleInputAmount 600001)
      = ⟨sampleNode.db, [OutMsg.errorOut "Invalid amount"],
        Except.error HandlerErr.invalidAmount⟩) ∧
    (handleChannelUpdateProposalMessage sampleNode (sampleInputAmount 600000)).result
      ≠ Except.error HandlerErr.invalidAmount ∧
    resultIsOk (handleChannelUpdateProposalMessage sampleNode
      (sampleInputAmount 600000)).result = true := by
  refine ⟨?_, ?_, by decide⟩
  · exact (update_proposal_amount_validation sampleNode (sampleInputAmount 600001)
      ⟨hashDisplay sampleId, 600001, (PrivateKey.pubKey ⟨66⟩).compressed, [7, 7]⟩
      sampleId sampleChannel _ rfl rfl (by decide) (by decide) (by decide)).1
      (by decide)
  · exact (update_proposal_amount_validation sampleNode (sampleInputAmount 600000)
      ⟨hashDisplay sampleId, 600000, (PrivateKey.pubKey ⟨66⟩).compressed, [7, 7]⟩
      sampleId sampleChannel _ rfl rfl (by decide) (by decide) (by decide)).2
      (by decide)

/-- C5: on every failure exit of the update exchange the persisted store is exactly
the store the handler started from, and on the success exit the single durable
write stores the updated record, leaves the transaction journal untouched, bumps
the transaction counter by one, and can only happen after a FinalizeUpdate reply
was received whose revealed revocation key matches the remote revocation pubkey
held before the update. -/
theorem update_exchange_durable_only_after_finalize (node : NodeState)
    (inp : UpdateMsgInput) (out : HandlerOutcome)
    (hout : handleChannelUpdateProposalMessage node inp = out) :
    (∀ e, out.result = Except.error e → out.db = node.db) ∧
    (∀ u cid c c2, inp.payload = some u → newHashFromStr u.channelID = some cid →
      getChannel node cid = some c → out.result = Except.ok c2 →
      out.db = saveChannel node.db c2 none ∧
      out.db.transactions = node.db.transactions ∧
      c2.TransactionCount = c.TransactionCount + 1 ∧
      ∃ rb, inp.reply = some (ReplyMsg.finalizeReply (some rb)) ∧
        (privKeyFromBytes rb).pubKey.compressed = c.RemoteRevocationPubkey.compressed) := by
  constructor
  · intro e he
    exact handleUpdate_error_db node inp out hout e he
  · intro u cid c c2 hp hcid hc hres
    obtain ⟨newPub, tx1, sig1, rb, _, _, _, _, hr, hk, hc2, hdb⟩ :=
      handleUpdate_ok_spec node inp u cid c c2 out hout hp hcid hc hres
    refine ⟨hdb, ?_, ?_, rb, hr, hk⟩
    · rw [hdb, saveChannel_none_transactions]
    · rw [hc2]
      rfl

theorem update_exchange_durable_only_after_finalize_witness :
    (handleChannelUpdateProposalMessage sampleNode (sampleInputAmount 0)).db
      = sampleNode.db ∧
    (handleChannelUpdateProposalMessage sampleNode sampleInput).db
      = saveChannel sampleNode.db sampleFinalChannel none ∧
    sampleFinalChannel.TransactionCount = sampleChannel.TransactionCount + 1 := by
  refine ⟨?_, ?_, ?_⟩
  · exact (update_exchange_durable_only_after_finalize sampleNode (sampleInputAmount 0)
      _ rfl).1 HandlerErr.invalidAmount (by decide)
  · exact ((update_exchange_durable_only_after_finalize sampleNode sampleInput _ rfl).2
      ⟨hashDisplay sampleId, 500, (PrivateKey.pubKey ⟨66⟩).compressed, [7, 7]⟩
      sampleId sampleChannel sampleFinalChannel rfl (by decide) (by decide) (by decide)).1
  · exact ((update_exchange_durable_only_after_finalize sampleNode sampleInput _ rfl).2
      ⟨hashDisplay sampleId, 500, (PrivateKey.pubKey ⟨66⟩).compressed, [7, 7]⟩
      sampleId sampleChannel sampleFinalChannel rfl (by decide) (by decide)
      (by decide)).2.2.1

/-- C6: in every commitment scriptSig the update handler assembles and persists,
the funder's signature occupies the first slot after OP_0 and the fundee's the
second — on an inbound channel the remote peer's proposal signature is placed
before the locally produced one, on an outbound channel the local signature comes
first — mirroring the escrow script built by the inbound opener, where the channel
opener's (funder's) pubkey is pushed first. -/
theorem commitment_scriptsig_funder_first (node : NodeState) (inp : UpdateMsgInput)
    (u : ChannelUpdateProposal) (cid : Hash) (c : Channel) (c2 : Channel)
    (out : HandlerOutcome)
    (hout : handleChannelUpdateProposalMessage node inp = out)
    (hp : inp.payload = some u) (hcid : newHashFromStr u.channelID = some cid)
    (hc : getChannel node cid = some c) (hres : out.result = Except.ok c2) :
    (∃ localSig,
      c2.CommitmentTx.txIn.map TxIn.signatureScript =
        [0 :: (pushData (if c.Inbound then u.signature else localSig) ++
          pushData (if c.Inbound then localSig else u.signature) ++
          pushData c.RedeemScript)]) ∧
    (∀ (params : Params) (addressID : Bytes) (remotePub remoteRevPub : PublicKey)
      (dustLimt feePerByte : Int) (delay : Nat) (rScript : Bytes) (peerID : String)
      (chPriv firstRev : PrivateKey) (payout : Bytes) (cdate : Int) (ch : Channel),
      initNewIncomingChannel params addressID remotePub remoteRevPub dustLimt feePerByte
        delay rScript peerID chPriv firstRev payout cdate = Except.ok ch →
      ch.RedeemScript = addInt64 2 ++ pushData remotePub.compressed ++
        pushData chPriv.pubKey.compressed ++ addInt64 2 ++ [OP_CHECKMULTISIG]) := by
  constructor
  · obtain ⟨newPub, tx1, sig1, rb, _, _, _, hb1, _, _, hc2, _⟩ :=
      handleUpdate_ok_spec node inp u cid c c2 out hout hp hcid hc hres
    have htxin := buildCommitment_txIn _ _ _ _ _ _ hb1
    refine ⟨sig1, ?_⟩
    rw [hc2]
    rw [show (updatedChannel c u newPub tx1 sig1 inp.freshRevocationKey rb
      node.params).CommitmentTx.txIn = tx1.txIn.map (fun i =>
        { i with signatureScript := commitmentScriptSigFor c u.signature sig1 }) from rfl]
    rw [htxin]
    cases hinb : c.Inbound <;>
      simp [commitmentScriptSigFor, buildCommitmentScriptSig, hinb]
  · intro params addressID remotePub remoteRevPub dustLimt feePerByte delay rScript
      peerID chPriv firstRev payout cdate ch h
    simp only [initNewIncomingChannel] at h
    split at h
    · exact absurd h (by simp)
    · simp only [Except.ok.injEq] at h
      rw [← h]
      rfl

theorem commitment_scriptsig_funder_first_witness :
    (∃ localSig,
      sampleFinalChannel.CommitmentTx.txIn.map TxIn.signatureScript =
        [0 :: (pushData (if sampleChannel.Inbound then ([7, 7] : Bytes) else localSig) ++
          pushData (if sampleChannel.Inbound then localSig else ([7, 7] : Bytes)) ++
          pushData sampleChannel.RedeemScript)]) ∧
    sampleChannel.Inbound = true :=
  ⟨(commitment_scriptsig_funder_first sampleNode sampleInput
      ⟨hashDisplay sampleId, 500, (PrivateKey.pubKey ⟨66⟩).compressed, [7, 7]⟩
      sampleId sampleChannel sampleFinalChannel _ rfl rfl (by decide) (by decide)
      (by decide)).1,
   by decide⟩

/-- C8: when FinalizeUpdate completes the exchange, the revealed revocation privkey
is stored only when its public key equals the remote revocation pubkey held before
this update, keyed by the breach-remedy address parameterized by that old
revocation pubkey, the local channel pubkey as commitment pubkey, the remote
channel pubkey as delay pubkey, and the channel delay; consequently the invariant
that every stored secret's pubkey is the revocation pubkey that built its address
is preserved. -/
theorem finalize_revocation_key_storage (node : NodeState) (inp : UpdateMsgInput)
    (u : ChannelUpdateProposal) (cid : Hash) (c : Channel) (c2 : Channel)
    (out : HandlerOutcome)
    (hout : handleChannelUpdateProposalMessage node inp = out)
    (hp : inp.payload = some u) (hcid : newHashFromStr u.channelID = some cid)
    (hc : getChannel node cid = some c) (hres : out.result = Except.ok c2) :
    ∃ rb, inp.reply = some (ReplyMsg.finalizeReply (some rb)) ∧
      (privKeyFromBytes rb).pubKey = c.RemoteRevocationPubkey ∧
      c2.RemoteRevocationPrivkeys = assocPut c.RemoteRevocationPrivkeys
        ((buildBreachRemedyAddress (privKeyFromBytes rb).pubKey c.LocalPrivkey.pubKey
          c.RemotePubkey c.Delay node.params).1) (privKeyFromBytes rb) ∧
      (revMapInvariant c node.params → revMapInvariant c2 node.params) := by
  obtain ⟨newPub, tx1, sig1, rb, _, _, _, hb1, hr, hk, hc2, _⟩ :=
    handleUpdate_ok_spec node inp u cid c c2 out hout hp hcid hc hres
  have hpub : (privKeyFromBytes rb).pubKey = c.RemoteRevocationPubkey := by
    calc (privKeyFromBytes rb).pubKey
        = ⟨(privKeyFromBytes rb).pubKey.compressed⟩ := rfl
      _ = ⟨c.RemoteRevocationPubkey.compressed⟩ := by rw [hk]
      _ = c.RemoteRevocationPubkey := rfl
  have hmap : c2.RemoteRevocationPrivkeys = assocPut c.RemoteRevocationPrivkeys
      ((buildBreachRemedyAddress (privKeyFromBytes rb).pubKey c.LocalPrivkey.pubKey
        c.RemotePubkey c.Delay node.params).1) (privKeyFromBytes rb) := by
    rw [hc2]
    exact rfl
  refine ⟨rb, hr, hpub, hmap, ?_⟩
  intro hinv p hp2
  rw [hmap] at hp2
  rcases mem_assocPut _ _ _ _ hp2 with h | h
  · refine ⟨c.LocalPrivkey.pubKey, c.RemotePubkey, c.Delay, ?_⟩
    rw [h]
  · exact hinv p h

theorem finalize_revocation_key_storage_witness :
    ∃ rb, sampleInput.reply = some (ReplyMsg.finalizeReply (some rb)) ∧
      (privKeyFromBytes rb).pubKey = sampleChannel.RemoteRevocationPubkey ∧
      sampleFinalChannel.RemoteRevocationPrivkeys = assocPut
        sampleChannel.RemoteRevocationPrivkeys
        ((buildBreachRemedyAddress (privKeyFromBytes rb).pubKey
          sampleChannel.LocalPrivkey.pubKey sampleChannel.RemotePubkey
          sampleChannel.Delay sampleNode.params).1) (privKeyFromBytes rb) ∧
      (revMapInvariant sampleChannel sampleNode.params →
        revMapInvariant sampleFinalChannel sampleNode.params) :=
  finalize_revocation_key_storage sampleNode sampleInput
    ⟨hashDisplay sampleId, 500, (PrivateKey.pubKey ⟨66⟩).compressed, [7, 7]⟩
    sampleId sampleChannel sampleFinalChannel _ rfl rfl (by decide) (by decide)
    (by decide)

end Bchw
